import Mathlib

set_option maxHeartbeats 1000000
set_option maxRecDepth 100000

/-!
Verification development for the ttb-label-verify repository.

The frontend operations (group creation, selection toggling, upload
validation, SSE stream consumption) are embedded from web/src/App.tsx.
The backend pipeline (government-warning matcher, extraction state
machine, verdict resolver) is not present in the repository snapshot
(api/ is absent); those parts are modelled from the specification, as
marked in their doc comments.

JavaScript string operations used by App.tsx (split, trim, startsWith,
drop, replace-first-occurrence) are embedded as structurally recursive
character-list functions so that concrete instances evaluate inside the
kernel.
-/

/-- Beverage type union from App.tsx line 3 and the backend BeverageType enum
(docs: auto, spirits, beer, wine). -/
inductive BeverageType
  | auto
  | spirits
  | beer
  | wine
deriving DecidableEq

/-- Field-level status union from the FieldResult type in App.tsx (pass, fail, unreadable). -/
inductive FieldStatus
  | pass
  | fail
  | unreadable
deriving DecidableEq

/-- Overall label status union from the LabelResult type in App.tsx line 40 and the
backend OverallStatus enum: PASS, FAIL, ESCALATE, RETRY, ERROR. -/
inductive OverallStatus
  | PASS
  | FAIL
  | ESCALATE
  | RETRY
  | ERROR
deriving DecidableEq

/-- UploadedImage record from App.tsx lines 5-12. -/
structure UploadedImage where
  id : String
  filename : String
  content_type : String
  storage_key : String
  size_bytes : Nat
  preview_url : String
deriving DecidableEq

/-- GroupImage record from App.tsx lines 14-19. -/
structure GroupImage where
  id : String
  filename : String
  storage_key : String
  preview_url : String
deriving DecidableEq

/-- LabelGroup record from App.tsx lines 21-26. -/
structure LabelGroup where
  label_id : String
  label_name : String
  beverage_type : BeverageType
  images : List GroupImage
deriving DecidableEq

/-- FieldResult record from App.tsx lines 28-35. -/
structure FieldResult where
  field_name : String
  status : FieldStatus
  extracted_value : Option String
  failure_reason : Option String
  cfr_reference : Option String
  found_on_image : Option Nat
deriving DecidableEq

/-- LabelResult record from App.tsx lines 37-45. -/
structure LabelResult where
  label_id : String
  label_name : String
  overall_status : OverallStatus
  beverage_type : BeverageType
  fields : List FieldResult
  escalation_reason : Option String
  images_processed : Nat
deriving DecidableEq

/-- BatchEvent record from App.tsx lines 47-52. -/
structure BatchEvent where
  batch_id : String
  completed : Nat
  total : Nat
  result : LabelResult
deriving DecidableEq

/-- Browser File object as used by uploadFiles: a name and a MIME content type.
The field called type in the browser API is renamed mime (type is a Lean keyword). -/
structure LFile where
  name : String
  mime : String
deriving DecidableEq

/-- MAX_BATCH constant from App.tsx line 54. -/
def MAX_BATCH : Nat := 100

/-- Boolean test for a prefix of a character list (embeds JavaScript startsWith). -/
def isPrefixList : List Char → List Char → Bool
  | [], _ => true
  | _ :: _, [] => false
  | a :: as, b :: bs => a == b && isPrefixList as bs

/-- Embeds JavaScript startsWith on strings. -/
def jsStartsWith (s pat : String) : Bool :=
  isPrefixList pat.toList s.toList

/-- Embeds JavaScript trim: whitespace stripped from both ends. -/
def jsTrim (s : String) : String :=
  String.mk (((s.toList.dropWhile Char.isWhitespace).reverse.dropWhile Char.isWhitespace).reverse)

/-- Drops the first n characters of a string. -/
def jsDrop (s : String) (n : Nat) : String :=
  String.mk (s.toList.drop n)

/-- Fuel-driven worker for jsSplitOn. The fuel always exceeds the remaining input
length at every call from jsSplitOn, so the fuel-zero branch is unreachable there. -/
def splitOnAuxChars (sep : List Char) : Nat → List Char → List Char → List (List Char)
  | 0, cs, acc => [acc.reverse ++ cs]
  | _ + 1, [], acc => [acc.reverse]
  | fuel + 1, c :: rest, acc =>
    if isPrefixList sep (c :: rest) then
      acc.reverse :: splitOnAuxChars sep fuel (rest.drop (sep.length - 1)) []
    else
      splitOnAuxChars sep fuel rest (c :: acc)

/-- Embeds JavaScript split with a nonempty string separator, scanning left to right
over non-overlapping occurrences of the separator. -/
def jsSplitOn (s sep : String) : List String :=
  (splitOnAuxChars sep.toList (s.toList.length + 1) s.toList []).map String.mk

/-- Test for the characters collapsed by the regex of baseLabelName (underscore and dash runs). -/
def isSquashChar (c : Char) : Bool :=
  c == '_' || c == '-'

/-- Replaces every maximal run of underscores and dashes with one space, embedding
the global regex replace in baseLabelName (App.tsx line 57). -/
def squashRuns : List Char → List Char
  | [] => []
  | [c] => if isSquashChar c then [' '] else [c]
  | c :: d :: rest =>
    if isSquashChar c then
      if isSquashChar d then squashRuns (d :: rest)
      else ' ' :: squashRuns (d :: rest)
    else c :: squashRuns (d :: rest)

/-- Strips a trailing dot-extension, embedding the anchored regex replace in
baseLabelName (App.tsx line 57): a final dot followed by one or more non-dot
characters is removed, otherwise the string is unchanged. -/
def stripExt (s : String) : String :=
  let rev := s.toList.reverse
  let suf := rev.takeWhile (fun c => c ≠ '.')
  if suf.length = 0 ∨ suf.length = rev.length then s
  else String.mk ((rev.drop (suf.length + 1)).reverse)

/-- baseLabelName from App.tsx lines 56-58. -/
def baseLabelName (filename : String) : String :=
  let t := jsTrim (String.mk (squashRuns (stripExt filename).toList))
  if t = "" then "Untitled Label" else t

/-- suggestedLabelName from App.tsx lines 60-68, at the UploadedImage call sites. -/
def suggestedLabelName (images : List UploadedImage) : String :=
  match images with
  | [] => ""
  | [img] => baseLabelName img.filename
  | img :: rest => baseLabelName img.filename ++ " +" ++ toString rest.length ++ " image(s)"

/-- The React component state of App.tsx relevant to upload, selection and grouping:
files, uploaded, selectedIds, groups, labelName, labelNameEdited, beverageType, error. -/
structure AppState where
  files : Option (List LFile)
  uploaded : List UploadedImage
  selectedIds : Finset String
  groups : List LabelGroup
  labelName : String
  labelNameEdited : Bool
  beverageType : BeverageType
  error : String

/-- selectedImages memo from App.tsx lines 86-89: uploaded images whose id is selected. -/
def selectedImages (st : AppState) : List UploadedImage :=
  st.uploaded.filter (fun item => decide (item.id ∈ st.selectedIds))

/-- The set of image ids already placed in some group (App.tsx lines 91-94). -/
def groupedIds (groups : List LabelGroup) : List String :=
  groups.flatMap (fun g => g.images.map (fun i => i.id))

/-- poolImages memo from App.tsx lines 91-94: uploaded images not in any group. -/
def poolImages (st : AppState) : List UploadedImage :=
  st.uploaded.filter (fun item => !(groupedIds st.groups).contains item.id)

/-- toggleSelection from App.tsx lines 111-124: removes a present id; otherwise inserts
it unless the selection already has three or more ids. -/
def toggleSelection (id : String) (s : Finset String) : Finset String :=
  if id ∈ s then s.erase id
  else if 3 ≤ s.card then s
  else insert id s

/-- toGroupImage from App.tsx lines 126-133. -/
def toGroupImage (img : UploadedImage) : GroupImage :=
  { id := img.id, filename := img.filename, storage_key := img.storage_key,
    preview_url := img.preview_url }

/-- The observable action taken by uploadFiles before any network activity:
either an error message is set, or the upload request is issued with the files. -/
inductive UploadAction
  | errorSet (msg : String)
  | requestIssued (files : List LFile)
deriving DecidableEq

/-- The MIME allow-list check in uploadFiles (App.tsx line 145). -/
def allowedUploadType (f : LFile) : Bool :=
  f.mime == "image/jpeg" || f.mime == "image/png"

/-- The validation phase of uploadFiles (App.tsx lines 135-150): no files selected is
an error; the first file with a disallowed content type is an error naming that file;
otherwise the request is issued with all files. -/
def uploadDecision (files : Option (List LFile)) : UploadAction :=
  match files with
  | none => .errorSet "Choose at least one JPEG or PNG image."
  | some fs =>
    if fs.length = 0 then .errorSet "Choose at least one JPEG or PNG image."
    else
      match fs.find? (fun f => !(allowedUploadType f)) with
      | some f => .errorSet ("Unsupported file type: " ++ f.name ++ ". Only JPEG/PNG allowed.")
      | none => .requestIssued fs

/-- uploadFiles from App.tsx lines 135-167. Network effects are abstracted: resOk is
the ok flag of the fetch response, detail the parsed error detail, serverImages the
server items merged with their local preview URLs. -/
def uploadFiles (resOk : Bool) (detail : Option String) (serverImages : List UploadedImage)
    (st : AppState) : AppState :=
  let st0 := { st with error := "" }
  match uploadDecision st0.files with
  | .errorSet m => { st0 with error := m }
  | .requestIssued _ =>
    if resOk then { st0 with uploaded := st0.uploaded ++ serverImages, files := none }
    else { st0 with error := detail.getD "Upload failed" }

/-- createGroup from App.tsx lines 169-194. The crypto.randomUUID call is abstracted
as the newId argument. -/
def createGroup (newId : String) (st : AppState) : AppState :=
  let st0 := { st with error := "" }
  let sel := selectedImages st0
  if sel.length < 1 ∨ 3 < sel.length then
    { st0 with error := "Select 1 to 3 images to create a label group." }
  else if MAX_BATCH ≤ st0.groups.length then
    { st0 with error := "Batch already has 100 labels." }
  else
    let finalName := if jsTrim st0.labelName = "" then suggestedLabelName sel
                     else jsTrim st0.labelName
    { st0 with
      groups := st0.groups ++ [{ label_id := newId, label_name := finalName,
                                 beverage_type := st0.beverageType,
                                 images := sel.map toGroupImage }],
      labelName := "", labelNameEdited := false, selectedIds := ∅ }

/-- createSinglesFromPool from App.tsx lines 196-221. The per-group crypto.randomUUID
calls are abstracted as the freshId argument indexed by position. -/
def createSinglesFromPool (freshId : Nat → String) (st : AppState) : AppState :=
  let st0 := { st with error := "" }
  let pool := poolImages st0
  if pool.length = 0 then { st0 with error := "No ungrouped images available." }
  else if MAX_BATCH ≤ st0.groups.length then
    { st0 with error := "Batch already has 100 labels." }
  else
    let capacity := MAX_BATCH - st0.groups.length
    let target := pool.take capacity
    let newGroups := target.enum.map (fun p =>
      { label_id := freshId p.1, label_name := baseLabelName p.2.filename,
        beverage_type := st0.beverageType, images := [toGroupImage p.2] : LabelGroup })
    { st0 with groups := st0.groups ++ newGroups, selectedIds := ∅,
               labelName := "", labelNameEdited := false }

/-- One batch-construction interaction in the UI: createGroup, createSinglesFromPool,
or toggleSelection on the selection state. -/
inductive BatchOp
  | create (newId : String)
  | singles (freshId : Nat → String)
  | toggle (id : String)

/-- Applies one batch-construction interaction to the component state. -/
def applyOp (op : BatchOp) (st : AppState) : AppState :=
  match op with
  | .create nid => createGroup nid st
  | .singles f => createSinglesFromPool f st
  | .toggle id => { st with selectedIds := toggleSelection id st.selectedIds }

/-- Applies a sequence of batch-construction interactions in order. -/
def applyOps (ops : List BatchOp) (st : AppState) : AppState :=
  ops.foldl (fun s op => applyOp op s) st

/-- groupByLabelId memo from App.tsx lines 96-102: a Map from label_id to group built
by iterating the groups in order. Map.set overwrites, so Map.get returns the last
group carrying the key; the map is embedded as its lookup function. -/
def groupByLabelId (groups : List LabelGroup) (lid : String) : Option LabelGroup :=
  groups.reverse.find? (fun g => g.label_id == lid)

/-- The per-result group lookup performed while rendering results
(App.tsx lines 417-419): each result is paired with the group found by its label_id. -/
def renderAssociations (groups : List LabelGroup) (results : List LabelResult) :
    List (LabelResult × Option LabelGroup) :=
  results.map (fun r => (r, groupByLabelId groups r.label_id))

/-- The pieces of App.tsx component state touched inside the startVerification read
loop (lines 259-292): the local buffer variable plus the batchId, completed, total
and results state. -/
structure StreamState where
  buffer : String
  batchId : String
  completed : Nat
  total : Nat
  results : List LabelResult
deriving DecidableEq

/-- The component state when the read loop starts (App.tsx lines 224-228). -/
def initialStreamState : StreamState :=
  { buffer := "", batchId := "", completed := 0, total := 0, results := [] }

/-- Processing of one complete SSE block in the read loop (App.tsx lines 273-291):
find the first line starting with the data marker; drop that six-character marker,
which embeds the JavaScript first-occurrence replace on a line known to start with
it; trim; skip the payload done; otherwise decode the event and update state,
prepending the result. JSON.parse is abstracted as the decode argument. -/
def processBlock (decode : String → BatchEvent) (st : StreamState) (block : String) :
    StreamState :=
  match (jsSplitOn block "\n").find? (fun line => jsStartsWith line "data: ") with
  | none => st
  | some dataLine =>
    let payload := jsTrim (jsDrop dataLine 6)
    if payload = "done" then st
    else
      let event := decode payload
      { st with batchId := event.batch_id, completed := event.completed,
                total := event.total, results := event.result :: st.results }

/-- Processing of one transport chunk in the read loop (App.tsx lines 269-292):
append to the buffer, split on blank lines, keep the trailing incomplete part as the
new buffer, and process every complete block. -/
def processChunk (decode : String → BatchEvent) (st : StreamState) (chunk : String) :
    StreamState :=
  let parts := jsSplitOn (st.buffer ++ chunk) "\n\n"
  parts.dropLast.foldl (processBlock decode) { st with buffer := parts.getLast?.getD "" }

/-- The while-true read loop of startVerification (App.tsx lines 263-292): chunks are
read until the transport reports done (the end of the chunk list), and each chunk is
processed in order. -/
def startVerificationLoop (decode : String → BatchEvent) (chunks : List String)
    (st : StreamState) : StreamState :=
  chunks.foldl (processChunk decode) st

/-- Provider failure taxonomy from the spec (sections 4.2 and 7): timeout, malformed
output, authentication failure, rate limiting. -/
inductive ProviderError
  | timeout
  | malformedResponse
  | authFailure
  | rateLimit
deriving DecidableEq

/-- Prompt variants from the spec (section 4.2). -/
inductive PromptVariant
  | standard
  | degradedImageSpecialized
deriving DecidableEq

/-- Lookup of a field value in an extracted field map. -/
def lookupField (m : List (String × String)) (f : String) : Option String :=
  (m.find? (fun p => p.1 == f)).map (fun p => p.2)

/-- The required fields that lack a non-empty extracted value in a field map
(spec section 4.3: the only branch condition is value present versus absent). -/
def missingFields (required : List String) (m : List (String × String)) : List String :=
  required.filter (fun f => (lookupField m f).getD "" == "")

/-- Terminal result of the extraction state machine for one group (spec section 3):
a complete field map, a residual missing-field set after both passes, or a
distinguished provider-error outcome. -/
inductive ExtractionOutcome
  | complete (fields : List (String × String))
  | residual (missing : List String) (fields : List (String × String))
  | error (e : ProviderError)
deriving DecidableEq

/-- Modelled from the spec: the extraction state machine of section 4.3, whose
implementation (api/services/verification.py) is not in the repository snapshot.
Pass 1 calls the provider with the standard prompt; if every required field has a
non-empty value the outcome is complete; otherwise pass 2 calls the provider with
the degraded-image-specialized prompt and the merged map decides complete versus
residual; a ProviderError at either pass immediately yields the error outcome with
no further provider call. -/
def runExtraction (required : List String) (images : List String)
    (provider : List String → PromptVariant → Except ProviderError (List (String × String))) :
    ExtractionOutcome :=
  match provider images .standard with
  | .error e => .error e
  | .ok m1 =>
    if (missingFields required m1).isEmpty then .complete m1
    else
      match provider images .degradedImageSpecialized with
      | .error e => .error e
      | .ok m2 =>
        let merged := m1 ++ m2
        if (missingFields required merged).isEmpty then .complete merged
        else .residual (missingFields required merged) merged

/-- Field-level classification used by the rule set and resolver of spec sections
4.1 and 4.4: pass, fail, unreadable, or escalate-classified. -/
inductive FieldClass
  | pass
  | fail
  | unreadable
  | escalate
deriving DecidableEq

/-- The canonical Government Warning text of 27 CFR Part 16 as given in the PRD
section 3.1.4, with its line breaks normalized to single spaces. -/
def canonicalGovernmentWarning : String :=
  "GOVERNMENT WARNING: (1) According to the Surgeon General, women should not drink alcoholic beverages during pregnancy because of the risk of birth defects. (2) Consumption of alcoholic beverages impairs your ability to drive a car or operate machinery, and may cause health problems."

/-- Splits a character list into maximal whitespace-free words. -/
def wordsAux : List Char → List Char → List (List Char)
  | [], acc => if acc.isEmpty then [] else [acc.reverse]
  | c :: rest, acc =>
    if c.isWhitespace then
      if acc.isEmpty then wordsAux rest []
      else acc.reverse :: wordsAux rest []
    else wordsAux rest (c :: acc)

/-- Joins strings with a separator between consecutive elements. -/
def joinWith (sep : String) : List String → String
  | [] => ""
  | [w] => w
  | w :: rest => w ++ sep ++ joinWith sep rest

/-- Whitespace and line-break normalization of the warning matcher (spec section
4.1): runs of whitespace collapse to single spaces and outer whitespace is dropped. -/
def normalizeWs (s : String) : String :=
  joinWith " " ((wordsAux s.toList []).map String.mk)

/-- Modelled from the spec: the Government Warning matcher of spec section 4.1,
whose implementation (api/validators/health_warning.py) is not in the repository
snapshot. It normalizes whitespace and line breaks in the extracted warning text
and then requires byte-for-byte case-sensitive equality against the single
canonical string; any deviation is a field-level fail, never an escalation and
never unreadable. -/
def checkGovernmentWarning (extracted : String) : FieldClass :=
  if normalizeWs extracted = canonicalGovernmentWarning then .pass else .fail

/-- A resolved concrete beverage type: spirits, beer or wine, never auto. -/
inductive ResolvedBev
  | spirits
  | beer
  | wine
deriving DecidableEq

/-- Modelled from the spec: the fixed heuristic lookup inferring a beverage type
from an extracted class or type designation (spec section 4.4). The exact keyword
table is underspecified upstream (spec section 9 open question); it is represented
here by a fixed lookup whose precise contents no claim depends on. -/
def inferBeverage (hint : String) : Option ResolvedBev :=
  if hint = "whiskey" ∨ hint = "bourbon" ∨ hint = "vodka" ∨ hint = "gin" ∨ hint = "rum" then
    some .spirits
  else if hint = "beer" ∨ hint = "ale" ∨ hint = "lager" ∨ hint = "stout" then some .beer
  else if hint = "wine" ∨ hint = "table wine" ∨ hint = "sparkling wine" then some .wine
  else none

/-- Modelled from the spec: beverage type resolution of spec section 4.4, whose
implementation is not in the repository snapshot. A concrete requested type is used
directly; auto is inferred from the extracted designation hint; none means the
inference is ambiguous. -/
def resolveBeverage (req : BeverageType) (hint : Option String) : Option ResolvedBev :=
  match req with
  | .spirits => some .spirits
  | .beer => some .beer
  | .wine => some .wine
  | .auto => hint.bind inferBeverage

/-- Injection of a resolved concrete beverage type into the output union. -/
def toBeverageType : ResolvedBev → BeverageType
  | .spirits => .spirits
  | .beer => .beer
  | .wine => .wine

/-- Modelled from the spec: the overall label status derivation of spec section 4.4,
whose implementation (api/services/verification.py) is not in the repository
snapshot. Priority order: a provider-error outcome is ERROR; any field fail is
FAIL; any unreadable or escalate-classified field, or an ambiguous beverage type,
is ESCALATE; otherwise PASS. -/
def resolveOverall (outcome : ExtractionOutcome) (classes : List FieldClass)
    (bevAmbiguous : Bool) : OverallStatus :=
  match outcome with
  | .error _ => .ERROR
  | _ =>
    if classes.contains .fail then .FAIL
    else if classes.any (fun c => c == .unreadable || c == .escalate) || bevAmbiguous then
      .ESCALATE
    else .PASS

/-- Modelled from the spec: assembly of the terminal LabelResult for one group
(spec sections 3 and 4.4), whose implementation is not in the repository snapshot.
The reported beverage type is the resolved concrete type; the spec does not name
the reported type when auto-inference is ambiguous, so that case is modelled with
an arbitrary concrete fallback (spirits) together with the escalation reason the
spec prescribes; no claim depends on which concrete type the fallback picks. The
field-result list is passed through from the rules engine. -/
def buildLabelResult (g : LabelGroup) (outcome : ExtractionOutcome)
    (classes : List FieldClass) (hint : Option String) (fields : List FieldResult) :
    LabelResult :=
  let resolved := resolveBeverage g.beverage_type hint
  { label_id := g.label_id, label_name := g.label_name,
    overall_status := resolveOverall outcome classes resolved.isNone,
    beverage_type := toBeverageType (resolved.getD .spirits),
    fields := fields,
    escalation_reason := if resolved.isNone then some "beverage type could not be determined"
                         else none,
    images_processed := g.images.length }

/-- A sample group image for concrete instances. -/
def demoImage : GroupImage :=
  { id := "i1", filename := "front.png", storage_key := "k1", preview_url := "p1" }

/-- A sample single-image label group for concrete instances. -/
def demoGroup : LabelGroup :=
  { label_id := "g1", label_name := "Demo", beverage_type := .beer, images := [demoImage] }

/-- A second sample label group with a distinct label_id. -/
def demoGroup2 : LabelGroup :=
  { label_id := "g2", label_name := "Demo 2", beverage_type := .wine, images := [demoImage] }

/-- A two-group batch with distinct label ids. -/
def demoGroups : List LabelGroup := [demoGroup, demoGroup2]

/-- The empty component state before any interaction. -/
def emptyAppState : AppState :=
  { files := none, uploaded := [], selectedIds := ∅, groups := [], labelName := "",
    labelNameEdited := false, beverageType := .auto, error := "" }

/-- A component state whose batch already holds exactly MAX_BATCH groups. -/
def fullBatchState : AppState :=
  { emptyAppState with groups := List.replicate MAX_BATCH demoGroup }

/-- A component state holding one uploaded image, selected, with one existing group. -/
def oneSelectedState : AppState :=
  { emptyAppState with
    uploaded := [{ id := "u1", filename := "back.png", content_type := "image/png",
                   storage_key := "k2", size_bytes := 10, preview_url := "p2" }],
    selectedIds := {"u1"},
    groups := [demoGroup] }

/-- A component state whose chosen files contain a disallowed content type. -/
def demoUploadState : AppState :=
  { emptyAppState with files := some [{ name := "a.gif", mime := "image/gif" }] }

/-- A sample streamed result whose label_id is the given string. -/
def demoResult (lid : String) : LabelResult :=
  { label_id := lid, label_name := lid, overall_status := .PASS, beverage_type := .beer,
    fields := [], escalation_reason := none, images_processed := 1 }

/-- A sample decode function standing in for JSON.parse in concrete instances. -/
def demoDecode (payload : String) : BatchEvent :=
  { batch_id := "b", completed := 1, total := 2, result := demoResult payload }

/-- A provider that raises a timeout ProviderError on every call. -/
def demoProviderFail (_ : List String) (_ : PromptVariant) :
    Except ProviderError (List (String × String)) :=
  .error .timeout

/-- C1: the Government Warning matcher first normalizes whitespace and line breaks
and then requires byte-for-byte case-sensitive equality against the single canonical
string; any input whose normalization differs from the canonical text yields field
status fail, never escalate and never unreadable, and the unmodified canonical text
yields pass. -/
theorem c1_government_warning_exact (s : String) :
    (normalizeWs s ≠ canonicalGovernmentWarning → checkGovernmentWarning s = .fail) ∧
    checkGovernmentWarning canonicalGovernmentWarning = .pass ∧
    checkGovernmentWarning s ≠ .escalate ∧ checkGovernmentWarning s ≠ .unreadable := by
  refine ⟨fun h => by simp [checkGovernmentWarning, h], ?_, ?_, ?_⟩
  · have h : normalizeWs canonicalGovernmentWarning = canonicalGovernmentWarning := by decide
    simp [checkGovernmentWarning, h]
  · unfold checkGovernmentWarning
    split <;> simp
  · unfold checkGovernmentWarning
    split <;> simp

/-- Concrete instance of c1_government_warning_exact: an all-lower-case mutation of
the heading normalizes to a non-canonical string and fails, while the canonical text
passes. -/
theorem c1_government_warning_witness :
    normalizeWs "government warning:" ≠ canonicalGovernmentWarning ∧
    checkGovernmentWarning "government warning:" = .fail ∧
    checkGovernmentWarning canonicalGovernmentWarning = .pass :=
  ⟨by decide, (c1_government_warning_exact "government warning:").1 (by decide),
    (c1_government_warning_exact "government warning:").2.1⟩

/-- C2: a ProviderError at either extraction pass is not retried and immediately
yields the error outcome; after a pass-1 error the outcome does not depend on any
other provider behaviour, and the terminal LabelResult built from an error outcome
carries the distinguished ERROR status, which is neither FAIL nor the residual
outcome. -/
theorem c2_provider_error_terminal (required images : List String)
    (p q : List String → PromptVariant → Except ProviderError (List (String × String)))
    (e : ProviderError) :
    (p images .standard = .error e → runExtraction required images p = .error e) ∧
    (∀ m1, p images .standard = .ok m1 → (missingFields required m1).isEmpty = false →
      p images .degradedImageSpecialized = .error e →
      runExtraction required images p = .error e) ∧
    (p images .standard = .error e → q images .standard = .error e →
      runExtraction required images p = runExtraction required images q) ∧
    (∀ g classes hint fields,
      (buildLabelResult g (.error e) classes hint fields).overall_status = .ERROR ∧
      (buildLabelResult g (.error e) classes hint fields).overall_status ≠ .FAIL ∧
      ∀ miss flds, (ExtractionOutcome.error e) ≠ .residual miss flds) := by
  refine ⟨?_, ?_, ?_, ?_⟩
  · intro h
    unfold runExtraction
    rw [h]
  · intro m1 h1 h2 h3
    unfold runExtraction
    rw [h1]
    simp only [h2, Bool.false_eq_true, if_false]
    rw [h3]
  · intro h1 h2
    unfold runExtraction
    rw [h1, h2]
  · intro g classes hint fields
    refine ⟨?_, ?_, ?_⟩
    · simp [buildLabelResult, resolveOverall]
    · simp [buildLabelResult, resolveOverall]
    · intro miss flds
      simp

/-- Concrete instance of c2_provider_error_terminal: a provider that times out at
pass 1 produces the error outcome and an ERROR label status. -/
theorem c2_provider_error_witness :
    demoProviderFail [] PromptVariant.standard = .error .timeout ∧
    runExtraction ["brand_name"] [] demoProviderFail = .error .timeout ∧
    (buildLabelResult demoGroup (.error .timeout) [] none []).overall_status = .ERROR :=
  ⟨rfl,
    (c2_provider_error_terminal ["brand_name"] [] demoProviderFail demoProviderFail
      .timeout).1 rfl,
    ((c2_provider_error_terminal ["brand_name"] [] demoProviderFail demoProviderFail
      .timeout).2.2.2 demoGroup [] none []).1⟩

/-- C3: every terminal LabelResult assembled by the resolver carries one of the four
statuses PASS, FAIL, ESCALATE, ERROR, and in particular never the internal RETRY
status. -/
theorem c3_overall_status_range (g : LabelGroup) (outcome : ExtractionOutcome)
    (classes : List FieldClass) (hint : Option String) (fields : List FieldResult) :
    (buildLabelResult g outcome classes hint fields).overall_status ≠ .RETRY ∧
    ((buildLabelResult g outcome classes hint fields).overall_status = .PASS ∨
     (buildLabelResult g outcome classes hint fields).overall_status = .FAIL ∨
     (buildLabelResult g outcome classes hint fields).overall_status = .ESCALATE ∨
     (buildLabelResult g outcome classes hint fields).overall_status = .ERROR) := by
  have h : ∀ (o : ExtractionOutcome) (b : Bool),
      resolveOverall o classes b ≠ .RETRY ∧
      (resolveOverall o classes b = .PASS ∨ resolveOverall o classes b = .FAIL ∨
       resolveOverall o classes b = .ESCALATE ∨ resolveOverall o classes b = .ERROR) := by
    intro o b
    cases o with
    | error e => simp [resolveOverall]
    | complete fs =>
      unfold resolveOverall
      split_ifs <;> simp
    | residual miss fs =>
      unfold resolveOverall
      split_ifs <;> simp
  simpa only [buildLabelResult] using h outcome (resolveBeverage g.beverage_type hint).isNone

/-- C4: every terminal LabelResult assembled by the resolver reports a resolved
concrete beverage type, spirits, beer or wine, and never auto, including when the
group requested auto. -/
theorem c4_beverage_type_resolved (g : LabelGroup) (outcome : ExtractionOutcome)
    (classes : List FieldClass) (hint : Option String) (fields : List FieldResult) :
    (buildLabelResult g outcome classes hint fields).beverage_type ≠ .auto ∧
    ((buildLabelResult g outcome classes hint fields).beverage_type = .spirits ∨
     (buildLabelResult g outcome classes hint fields).beverage_type = .beer ∨
     (buildLabelResult g outcome classes hint fields).beverage_type = .wine) := by
  have h : ∀ r : ResolvedBev, toBeverageType r ≠ .auto ∧
      (toBeverageType r = .spirits ∨ toBeverageType r = .beer ∨ toBeverageType r = .wine) := by
    intro r
    cases r <;> simp [toBeverageType]
  simpa only [buildLabelResult] using
    h ((resolveBeverage g.beverage_type hint).getD .spirits)

/-- Clearing or setting the error message leaves the selected images unchanged. -/
theorem selectedImages_set_error (st : AppState) (msg : String) :
    selectedImages { st with error := msg } = selectedImages st := rfl

/-- Clearing or setting the error message leaves the pool unchanged. -/
theorem poolImages_set_error (st : AppState) (msg : String) :
    poolImages { st with error := msg } = poolImages st := rfl

/-- Helper: createGroup keeps the batch within the MAX_BATCH cap. -/
theorem createGroup_length_le (nid : String) (st : AppState)
    (h : st.groups.length ≤ MAX_BATCH) :
    (createGroup nid st).groups.length ≤ MAX_BATCH := by
  simp only [createGroup]
  split_ifs with h1 h2 h3 <;> dsimp only
  · exact h
  · exact h
  all_goals
    simp only [List.length_append, List.length_cons, List.length_nil]
    simp only [not_le] at h2
    omega

/-- Helper: createSinglesFromPool keeps the batch within the MAX_BATCH cap. -/
theorem createSinglesFromPool_length_le (f : Nat → String) (st : AppState)
    (h : st.groups.length ≤ MAX_BATCH) :
    (createSinglesFromPool f st).groups.length ≤ MAX_BATCH := by
  simp only [createSinglesFromPool]
  split_ifs with h1 h2 <;> dsimp only
  · exact h
  · exact h
  · simp only [List.length_append, List.length_map, List.enum_length, List.length_take]
    simp only [not_le] at h2
    have hmin := Nat.min_le_left (MAX_BATCH - st.groups.length)
      (poolImages { st with error := "" }).length
    omega

/-- Helper: every batch-construction interaction keeps the batch within the cap. -/
theorem applyOp_length_le (op : BatchOp) (st : AppState)
    (h : st.groups.length ≤ MAX_BATCH) :
    (applyOp op st).groups.length ≤ MAX_BATCH := by
  cases op with
  | create nid => exact createGroup_length_le nid st h
  | singles f => exact createSinglesFromPool_length_le f st h
  | toggle id => simpa [applyOp] using h

/-- Helper: at the cap, createGroup leaves the groups unchanged and reports an error. -/
theorem createGroup_at_cap (nid : String) (st : AppState)
    (h : st.groups.length = MAX_BATCH) :
    (createGroup nid st).groups = st.groups ∧ (createGroup nid st).error ≠ "" := by
  simp only [createGroup]
  split_ifs with h1 h2 h3 <;> dsimp only
  · exact ⟨rfl, by decide⟩
  · exact ⟨rfl, by decide⟩
  all_goals
    exfalso
    simp only [not_le] at h2
    omega

/-- Helper: at the cap, createSinglesFromPool leaves the groups unchanged. -/
theorem createSinglesFromPool_at_cap (f : Nat → String) (st : AppState)
    (h : st.groups.length = MAX_BATCH) :
    (createSinglesFromPool f st).groups = st.groups := by
  simp only [createSinglesFromPool]
  split_ifs with h1 h2
  · rfl
  · rfl
  · exfalso
    simp only [not_le] at h2
    omega

/-- C5: the batch never exceeds MAX_BATCH groups under any sequence of the
batch-construction interactions; createGroup at the cap leaves the groups unchanged
and reports an error; createSinglesFromPool admits only up to remaining capacity. -/
theorem c5_batch_cap (ops : List BatchOp) (st : AppState) (nid : String)
    (f : Nat → String) (h : st.groups.length ≤ MAX_BATCH) :
    (applyOps ops st).groups.length ≤ MAX_BATCH ∧
    (st.groups.length = MAX_BATCH →
      (createGroup nid st).groups = st.groups ∧ (createGroup nid st).error ≠ "" ∧
      (createSinglesFromPool f st).groups = st.groups) ∧
    (createSinglesFromPool f st).groups.length ≤ MAX_BATCH := by
  refine ⟨?_, ?_, createSinglesFromPool_length_le f st h⟩
  · induction ops generalizing st with
    | nil => simpa [applyOps] using h
    | cons op rest ih =>
      have hstep : applyOps (op :: rest) st = applyOps rest (applyOp op st) := rfl
      rw [hstep]
      exact ih (applyOp op st) (applyOp_length_le op st h)
  · intro hcap
    exact ⟨(createGroup_at_cap nid st hcap).1, (createGroup_at_cap nid st hcap).2,
      createSinglesFromPool_at_cap f st hcap⟩

/-- Concrete instance of c5_batch_cap at a state already holding exactly MAX_BATCH
groups. -/
theorem c5_batch_cap_witness :
    fullBatchState.groups.length ≤ MAX_BATCH ∧
    ((applyOps [BatchOp.create "n1"] fullBatchState).groups.length ≤ MAX_BATCH ∧
     (fullBatchState.groups.length = MAX_BATCH →
       (createGroup "n1" fullBatchState).groups = fullBatchState.groups ∧
       (createGroup "n1" fullBatchState).error ≠ "" ∧
       (createSinglesFromPool (fun _ => "m") fullBatchState).groups =
         fullBatchState.groups) ∧
     (createSinglesFromPool (fun _ => "m") fullBatchState).groups.length ≤ MAX_BATCH) :=
  ⟨by simp [fullBatchState, emptyAppState],
   c5_batch_cap [BatchOp.create "n1"] fullBatchState "n1" (fun _ => "m")
     (by simp [fullBatchState, emptyAppState])⟩

/-- Helper: createGroup preserves the one-to-three image-count invariant. -/
theorem createGroup_image_count (nid : String) (st : AppState)
    (h : ∀ g ∈ st.groups, 1 ≤ g.images.length ∧ g.images.length ≤ 3) :
    ∀ g ∈ (createGroup nid st).groups, 1 ≤ g.images.length ∧ g.images.length ≤ 3 := by
  simp only [createGroup]
  split_ifs with h1 h2 h3 <;> dsimp only
  · exact h
  · exact h
  all_goals
    intro g hg
    rw [selectedImages_set_error] at h1
    simp only [not_or, not_lt] at h1
    rcases List.mem_append.mp hg with hin | hin
    · exact h g hin
    · rcases List.mem_singleton.mp hin with rfl
      dsimp only
      rw [List.length_map, selectedImages_set_error]
      omega

/-- Helper: every group added by createSinglesFromPool has exactly one image. -/
theorem createSinglesFromPool_image_count (f : Nat → String) (st : AppState) :
    ∀ g ∈ (createSinglesFromPool f st).groups, g ∈ st.groups ∨ g.images.length = 1 := by
  simp only [createSinglesFromPool]
  split_ifs with h1 h2 <;> dsimp only <;> intro g hg
  · exact Or.inl hg
  · exact Or.inl hg
  · rcases List.mem_append.mp hg with hin | hin
    · exact Or.inl hin
    · right
      rcases List.mem_map.mp hin with ⟨p, hp, rfl⟩
      rfl

/-- Helper: toggleSelection never grows a selection of at most three ids past three. -/
theorem toggleSelection_card_le (id : String) (s : Finset String) (h : s.card ≤ 3) :
    (toggleSelection id s).card ≤ 3 := by
  unfold toggleSelection
  split_ifs with h1 h2
  · exact le_trans Finset.card_erase_le h
  · exact h
  · rw [Finset.card_insert_of_not_mem h1]
    omega

/-- Helper: every batch-construction interaction preserves the image-count invariant. -/
theorem applyOp_image_count (op : BatchOp) (st : AppState)
    (h : ∀ g ∈ st.groups, 1 ≤ g.images.length ∧ g.images.length ≤ 3) :
    ∀ g ∈ (applyOp op st).groups, 1 ≤ g.images.length ∧ g.images.length ≤ 3 := by
  cases op with
  | create nid => exact createGroup_image_count nid st h
  | singles f =>
    intro g hg
    rcases createSinglesFromPool_image_count f st g hg with hin | hone
    · exact h g hin
    · omega
  | toggle id => simpa [applyOp] using h

/-- C6: every group ever added to the batch carries between one and three images:
the invariant is preserved by every sequence of interactions, createGroup rejects a
selection of zero or more than three images without touching the batch,
toggleSelection never grows the selection past three ids, and createSinglesFromPool
only creates single-image groups. -/
theorem c6_image_count (ops : List BatchOp) (st : AppState) (nid : String)
    (f : Nat → String)
    (h : ∀ g ∈ st.groups, 1 ≤ g.images.length ∧ g.images.length ≤ 3) :
    (∀ g ∈ (applyOps ops st).groups, 1 ≤ g.images.length ∧ g.images.length ≤ 3) ∧
    ((selectedImages st).length = 0 ∨ 3 < (selectedImages st).length →
      (createGroup nid st).groups = st.groups) ∧
    (∀ id s, Finset.card s ≤ 3 → (toggleSelection id s).card ≤ 3) ∧
    (∀ g ∈ (createSinglesFromPool f st).groups, g ∈ st.groups ∨ g.images.length = 1) := by
  refine ⟨?_, ?_, fun id s hs => toggleSelection_card_le id s hs,
    createSinglesFromPool_image_count f st⟩
  · induction ops generalizing st with
    | nil => simpa [applyOps] using h
    | cons op rest ih =>
      have hstep : applyOps (op :: rest) st = applyOps rest (applyOp op st) := rfl
      rw [hstep]
      exact ih (applyOp op st) (applyOp_image_count op st h)
  · intro hbad
    simp only [createGroup]
    split_ifs with h1 h2 h3
    · rfl
    · rfl
    all_goals
      exfalso
      rw [selectedImages_set_error] at h1
      simp only [not_or, not_lt] at h1
      omega

/-- Concrete instance of c6_image_count at a state with one selected image and one
existing single-image group. -/
theorem c6_image_count_witness :
    (∀ g ∈ oneSelectedState.groups, 1 ≤ g.images.length ∧ g.images.length ≤ 3) ∧
    ((∀ g ∈ (applyOps [BatchOp.create "n2"] oneSelectedState).groups,
        1 ≤ g.images.length ∧ g.images.length ≤ 3) ∧
     ((selectedImages oneSelectedState).length = 0 ∨
        3 < (selectedImages oneSelectedState).length →
       (createGroup "n2" oneSelectedState).groups = oneSelectedState.groups) ∧
     (∀ id s, Finset.card s ≤ 3 → (toggleSelection id s).card ≤ 3) ∧
     (∀ g ∈ (createSinglesFromPool (fun _ => "m") oneSelectedState).groups,
        g ∈ oneSelectedState.groups ∨ g.images.length = 1)) :=
  ⟨by decide,
   c6_image_count [BatchOp.create "n2"] oneSelectedState "n2" (fun _ => "m") (by decide)⟩

/-- C9: toggleSelection is an involution on selections of at most three ids, and a
single application never produces more than three ids. -/
theorem c9_toggle_involution (s : Finset String) (id : String) (h : s.card ≤ 3) :
    toggleSelection id (toggleSelection id s) = s ∧ (toggleSelection id s).card ≤ 3 := by
  refine ⟨?_, toggleSelection_card_le id s h⟩
  by_cases h1 : id ∈ s
  · have h2 : id ∉ s.erase id := Finset.not_mem_erase id s
    have h3 : ¬ 3 ≤ (s.erase id).card := by
      have := Finset.card_erase_of_mem h1
      omega
    simp only [toggleSelection, if_pos h1, if_neg h2, if_neg h3]
    exact Finset.insert_erase h1
  · by_cases h4 : 3 ≤ s.card
    · simp only [toggleSelection, if_neg h1, if_pos h4]
    · have h5 : id ∈ insert id s := Finset.mem_insert_self id s
      simp only [toggleSelection, if_neg h1, if_neg h4, if_pos h5]
      exact Finset.erase_insert h1

/-- Concrete instance of c9_toggle_involution starting from the empty selection. -/
theorem c9_toggle_involution_witness :
    toggleSelection "u1" (toggleSelection "u1" (∅ : Finset String)) = ∅ ∧
    (toggleSelection "u1" (∅ : Finset String)).card ≤ 3 :=
  c9_toggle_involution ∅ "u1" (by simp)

/-- C7 counterexample: the read loop of startVerification does not end processing at
the explicit end-marker. In a stream whose chunks carry an event block, then the
done marker block, then another event block, the event after the marker is still
processed (two results are recorded), whereas a loop that ended at the marker would
record only the first; the loop ends at the end of the transport chunk list. The
done payload itself is skipped, as the second conjunct shows. -/
theorem c7_counterexample :
    (startVerificationLoop demoDecode ["data: a\n\ndata: done\n\ndata: b\n\n"]
        initialStreamState).results = [demoResult "b", demoResult "a"] ∧
    (startVerificationLoop demoDecode ["data: a\n\ndata: done\n\n"]
        initialStreamState).results = [demoResult "a"] :=
  ⟨by decide, by decide⟩

/-- Helper: on block boundaries the done marker chunk leaves the stream state
unchanged. -/
theorem processChunk_done_noop (decode : String → BatchEvent) (st : StreamState)
    (h : st.buffer = "") :
    processChunk decode st "data: done\n\n" = st := by
  obtain ⟨buf, bid, c, t, rs⟩ := st
  have hb : buf = "" := h
  subst hb
  rfl

/-- C7 as amended: the end-marker payload done is recognized and skipped, never
decoded as an event and never treated as the end of the loop; the read loop ends
processing exactly at transport end-of-stream (the end of the chunk list), so a
stream with the marker inserted between complete blocks behaves as the same stream
without the marker. -/
theorem c7_end_marker_amended (decode : String → BatchEvent) (pre post : List String)
    (st : StreamState) (h : (startVerificationLoop decode pre st).buffer = "") :
    startVerificationLoop decode (pre ++ "data: done\n\n" :: post) st =
      startVerificationLoop decode (pre ++ post) st := by
  unfold startVerificationLoop at h ⊢
  rw [List.foldl_append, List.foldl_cons, processChunk_done_noop decode _ h,
    ← List.foldl_append]

/-- Concrete instance of c7_end_marker_amended with an empty prefix. -/
theorem c7_end_marker_amended_witness :
    startVerificationLoop demoDecode ([] ++ "data: done\n\n" :: ["data: b\n\n"])
        initialStreamState =
      startVerificationLoop demoDecode ([] ++ ["data: b\n\n"]) initialStreamState :=
  c7_end_marker_amended demoDecode [] ["data: b\n\n"] initialStreamState rfl

/-- Helper: with pairwise distinct group ids, the last-wins map lookup coincides
with the first match in group order. -/
theorem groupByLabelId_eq_find (l : List LabelGroup) (lid : String)
    (hn : (l.map (fun g => g.label_id)).Nodup) :
    groupByLabelId l lid = l.find? (fun g => g.label_id == lid) := by
  unfold groupByLabelId
  induction l with
  | nil => rfl
  | cons a l ih =>
    simp only [List.map_cons, List.nodup_cons] at hn
    obtain ⟨ha, hl⟩ := hn
    rw [List.reverse_cons, List.find?_append, ih hl]
    by_cases hid : a.label_id = lid
    · have hnone : l.find? (fun g => g.label_id == lid) = none := by
        rw [List.find?_eq_none]
        intro x hx
        simp only [beq_iff_eq]
        intro hEq
        exact ha (hid ▸ hEq ▸ List.mem_map_of_mem (fun g => g.label_id) hx)
      rw [hnone]
      simp [List.find?_cons, hid]
    · cases hf : l.find? (fun g => g.label_id == lid) with
      | none => simp [List.find?_cons, hid, hf]
      | some x => simp [List.find?_cons, hid, hf]

/-- C8: the consumer attributes each received result to its group by a
label_id-keyed lookup, never by arrival position: with distinct group ids every
association equals the find-by-label_id over the groups list, and any two arrival
orders of the same events yield the same associations up to that reordering. -/
theorem c8_correlate_by_label_id (groups : List LabelGroup) (rs1 rs2 : List LabelResult)
    (hperm : rs1.Perm rs2) (hn : (groups.map (fun g => g.label_id)).Nodup) :
    (renderAssociations groups rs1).Perm (renderAssociations groups rs2) ∧
    ∀ r ∈ rs1, groupByLabelId groups r.label_id =
      groups.find? (fun g => g.label_id == r.label_id) :=
  ⟨hperm.map _, fun r _ => groupByLabelId_eq_find groups r.label_id hn⟩

/-- Concrete instance of c8_correlate_by_label_id: two results arriving in either
order associate to the same two groups. -/
theorem c8_correlate_witness :
    (renderAssociations demoGroups [demoResult "g1", demoResult "g2"]).Perm
      (renderAssociations demoGroups [demoResult "g2", demoResult "g1"]) ∧
    ∀ r ∈ [demoResult "g1", demoResult "g2"],
      groupByLabelId demoGroups r.label_id =
        demoGroups.find? (fun g => g.label_id == r.label_id) :=
  c8_correlate_by_label_id demoGroups [demoResult "g1", demoResult "g2"]
    [demoResult "g2", demoResult "g1"]
    (List.Perm.swap (demoResult "g2") (demoResult "g1") []) (by decide)

/-- C10: uploadFiles admits only JPEG and PNG: the request is issued exactly when
files were chosen and every one is JPEG or PNG; otherwise an error is set, naming
the first offending file, no request is issued, and the uploaded list is unchanged. -/
theorem c10_upload_validation (resOk : Bool) (detail : Option String)
    (serverImages : List UploadedImage) (st : AppState) :
    (∀ fs, uploadDecision st.files = .requestIssued fs ↔
      (st.files = some fs ∧ fs ≠ [] ∧ ∀ f ∈ fs, allowedUploadType f = true)) ∧
    ((∀ fs, uploadDecision st.files ≠ .requestIssued fs) →
      (uploadFiles resOk detail serverImages st).uploaded = st.uploaded) ∧
    (∀ fs f, st.files = some fs →
      fs.find? (fun x => !(allowedUploadType x)) = some f →
      uploadDecision st.files =
        .errorSet ("Unsupported file type: " ++ f.name ++ ". Only JPEG/PNG allowed.") ∧
      (uploadFiles resOk detail serverImages st).uploaded = st.uploaded) := by
  have hnoreq : (∀ fs, uploadDecision st.files ≠ .requestIssued fs) →
      (uploadFiles resOk detail serverImages st).uploaded = st.uploaded := by
    intro hno
    unfold uploadFiles
    dsimp only
    cases hd : uploadDecision st.files with
    | errorSet m => rfl
    | requestIssued fs => exact absurd hd (hno fs)
  refine ⟨?_, hnoreq, ?_⟩
  · intro fs
    constructor
    · intro hreq
      cases hf : st.files with
      | none =>
        rw [hf] at hreq
        simp [uploadDecision] at hreq
      | some fs0 =>
        rw [hf] at hreq
        unfold uploadDecision at hreq
        dsimp only at hreq
        by_cases hlen : fs0.length = 0
        · simp [hlen] at hreq
        · rw [if_neg hlen] at hreq
          cases hfind : fs0.find? (fun f => !(allowedUploadType f)) with
          | some f =>
            rw [hfind] at hreq
            simp at hreq
          | none =>
            rw [hfind] at hreq
            simp only [UploadAction.requestIssued.injEq] at hreq
            subst hreq
            refine ⟨rfl, ?_, ?_⟩
            · intro h0
              subst h0
              simp at hlen
            · intro f hfm
              have := List.find?_eq_none.mp hfind f hfm
              simpa using this
    · rintro ⟨hfs, hne, hall⟩
      rw [hfs]
      unfold uploadDecision
      dsimp only
      have hlen : ¬ fs.length = 0 := by
        cases fs with
        | nil => exact absurd rfl hne
        | cons a l => simp
      have hfind : fs.find? (fun x => !(allowedUploadType x)) = none := by
        rw [List.find?_eq_none]
        intro x hx
        simp [hall x hx]
      rw [if_neg hlen, hfind]
  · intro fs f hfs hfind
    have hdec : uploadDecision st.files =
        .errorSet ("Unsupported file type: " ++ f.name ++ ". Only JPEG/PNG allowed.") := by
      rw [hfs]
      unfold uploadDecision
      dsimp only
      have hlen : ¬ fs.length = 0 := by
        cases fs with
        | nil => simp at hfind
        | cons a l => simp
      rw [if_neg hlen, hfind]
    refine ⟨hdec, ?_⟩
    apply hnoreq
    intro fs0
    rw [hdec]
    intro hcontra
    exact UploadAction.noConfusion hcontra

/-- Concrete instance of c10_upload_validation: a GIF file is rejected with an error
naming it and the uploaded list is untouched. -/
theorem c10_upload_validation_witness :
    uploadDecision demoUploadState.files =
      .errorSet ("Unsupported file type: " ++ "a.gif" ++ ". Only JPEG/PNG allowed.") ∧
    (uploadFiles true none [] demoUploadState).uploaded = demoUploadState.uploaded :=
  (c10_upload_validation true none [] demoUploadState).2.2
    [{ name := "a.gif", mime := "image/gif" }] { name := "a.gif", mime := "image/gif" }
    rfl rfl
